import Mathlib

/-!
Verification of the `debughttp` package (an instrumenting HTTP transport):
a shallow embedding of its redaction engine (`cleanAuth`, `cleanAuths`) and
of the logging skeleton of `Transport.RoundTrip`, together with proofs of
the specified properties.

Bytes are modelled as `Nat` (`10` is the line feed `\n`, `13` is the
carriage return `\r`, `88` is the mask character `X`).
-/

namespace DebugHttp

/-- Bytes of a string (each character's code point), used to write
concrete byte buffers readably. -/
def strBytes (s : String) : List Nat :=
  s.data.map Char.toNat

/-! ## Dump flags (source: `DumpFlags` constants, debughttp.go lines 113-119) -/

/-- `DumpHeaders DumpFlags = 1 << iota` -/
def DumpHeaders : Nat := 1

/-- `DumpBodies` -/
def DumpBodies : Nat := 2

/-- `DumpRequests` -/
def DumpRequests : Nat := 4

/-- `DumpResponses` -/
def DumpResponses : Nat := 8

/-- `DumpAuth` -/
def DumpAuth : Nat := 16

/-! ## The default sensitive-header set (source: `Auth`, lines 143-146) -/

/-- Bytes of `"Authorization: "`. -/
def authorizationB : List Nat :=
  [65, 117, 116, 104, 111, 114, 105, 122, 97, 116, 105, 111, 110, 58, 32]

/-- Bytes of `"X-Auth-Token: "`. -/
def xAuthTokenB : List Nat :=
  [88, 45, 65, 117, 116, 104, 45, 84, 111, 107, 101, 110, 58, 32]

/-- The package-level `Auth` list, in source order. -/
def Auth : List (List Nat) := [authorizationB, xAuthTokenB]

/-! ## The redaction engine (source: `cleanAuth`, lines 219-246) -/

/-- `isPre nd l` is true when `nd` is a prefix of `l`
(the byte comparison underlying Go's `bytes.Index`). -/
def isPre : List Nat → List Nat → Bool
  | [], _ => true
  | _ :: _, [] => false
  | a :: as, b :: bs => a == b && isPre as bs

/-- Model of Go's `bytes.Index`: the first position of `nd` inside `hs`,
`none` when absent (`bytes.Index` returns `-1`). -/
def findSub : List Nat → List Nat → Option Nat
  | [], nd => if isPre nd [] then some 0 else none
  | a :: t, nd => if isPre nd (a :: t) then some 0 else (findSub t nd).map (· + 1)

/-- Model of the masking loop of `cleanAuth` (lines 232-238): starting at the
head of `l`, overwrite up to `fuel` bytes with `88` (`'X'`), stopping early at
a line feed or at the end of the buffer.  Returns the rewritten list together
with the number of bytes overwritten. -/
def maskN : Nat → List Nat → List Nat × Nat
  | 0, l => (l, 0)
  | _ + 1, [] => ([], 0)
  | fuel + 1, b :: rest =>
    if b == 10 then (b :: rest, 0)
    else
      let p := maskN fuel rest
      (88 :: p.1, p.2 + 1)

/-- Model of Go's `bytes.IndexByte`. -/
def indexOfByte : List Nat → Nat → Option Nat
  | [], _ => none
  | x :: xs, b => if x == b then some 0 else (indexOfByte xs b).map (· + 1)

/-- Model of `cleanAuth` (lines 219-246): find the first occurrence of
`authBuf` within the first 4096 bytes; if absent return `buf` unchanged;
otherwise mask up to 4 bytes of the following value with `'X'`, then splice
out everything up to (but not including) the next `'\n'`; if no `'\n'`
follows, truncate there. -/
def cleanAuth (buf authBuf : List Nat) : List Nat :=
  let n := min 4096 buf.length
  match findSub (buf.take n) authBuf with
  | none => buf
  | some idx =>
    let i := idx + authBuf.length
    let pre := buf.take i
    let suf := buf.drop i
    let mk := maskN 4 suf
    let start := mk.1.take mk.2
    let tail := mk.1.drop mk.2
    match indexOfByte tail 10 with
    | none => pre ++ start
    | some j => pre ++ start ++ tail.drop j

/-- Model of `Transport.cleanAuths` (lines 249-254): one `cleanAuth` pass per
configured prefix, in configuration order, threading the buffer through. -/
def cleanAuths (auth : List (List Nat)) (buf : List Nat) : List Nat :=
  auth.foldl cleanAuth buf

/-! ## The interception layer (source: `RoundTrip`, lines 257-292) -/

/-- One call of the configured logging function `Logf`, abstracting the
format strings of `RoundTrip`. -/
inductive LogLine where
  /-- `Logf("%s", SeparatorReq)` -/
  | sepReq : LogLine
  /-- `Logf("%s (req %p)", "HTTP REQUEST", req)` -/
  | bannerReq : LogLine
  /-- `Logf("Dump request failed: %v", derr)` -/
  | dumpReqFailed : LogLine
  /-- `Logf("%s", string(buf))` — a dumped request or response block -/
  | content (buf : List Nat) : LogLine
  /-- `Logf("%s", SeparatorResp)` -/
  | sepResp : LogLine
  /-- `Logf("%s (req %p)", "HTTP RESPONSE", req)` -/
  | bannerResp : LogLine
  /-- `Logf("HTTP request failed: %v", err)` -/
  | httpReqFailed : LogLine
  /-- `Logf("Dump response failed: %v", derr)` -/
  | dumpRespFailed : LogLine
deriving DecidableEq

/-- The guard of both logging blocks:
`Flags&(DumpHeaders|DumpBodies|DumpAuth|DumpRequests|DumpResponses) != 0`. -/
def loggingEnabled (flags : Nat) : Bool :=
  flags &&& (DumpHeaders ||| DumpBodies ||| DumpAuth ||| DumpRequests ||| DumpResponses) != 0

/-- The body argument of `httputil.DumpRequestOut` (line 262):
`t.opt.Flags&(DumpBodies|DumpRequests) != 0`. -/
def reqWithBody (flags : Nat) : Bool :=
  flags &&& (DumpBodies ||| DumpRequests) != 0

/-- The body argument of `httputil.DumpResponse` (line 282):
`t.opt.Flags&(DumpBodies|DumpResponses) != 0`. -/
def respWithBody (flags : Nat) : Bool :=
  flags &&& (DumpBodies ||| DumpResponses) != 0

/-- The request logging block of `RoundTrip` (lines 259-272).
`dumpRequestOut` stands for `httputil.DumpRequestOut` applied to the fixed
request, as a function of its body flag; `Except.error` models a dump error. -/
def reqLog (flags : Nat) (auth : List (List Nat))
    (dumpRequestOut : Bool → Except Unit (List Nat)) : List LogLine :=
  if loggingEnabled flags then
    [LogLine.sepReq, LogLine.bannerReq] ++
      (match dumpRequestOut (reqWithBody flags) with
        | Except.error _ => [LogLine.dumpReqFailed]
        | Except.ok buf =>
          [LogLine.content (if flags &&& DumpAuth == 0 then cleanAuths auth buf else buf)]) ++
      [LogLine.sepReq]
  else []

/-- The response logging block of `RoundTrip` (lines 276-290).  `errPresent`
is whether the wrapped transport returned a non-nil error; note that the
dumped response buffer is logged as is (line 286), without redaction. -/
def respLog (flags : Nat) (errPresent : Bool)
    (dumpResponse : Bool → Except Unit (List Nat)) : List LogLine :=
  if loggingEnabled flags then
    [LogLine.sepResp, LogLine.bannerResp] ++
      (if errPresent then [LogLine.httpReqFailed]
       else
        match dumpResponse (respWithBody flags) with
        | Except.error _ => [LogLine.dumpRespFailed]
        | Except.ok buf => [LogLine.content buf]) ++
      [LogLine.sepResp]
  else []

/-- Model of `Transport.RoundTrip` (lines 257-292).  `dispatch` is the value
`(resp, err)` returned by the wrapped transport's `RoundTrip`; the result is
the sequence of `Logf` calls in order together with the returned pair. -/
def RoundTrip {ρ ε : Type} (flags : Nat) (auth : List (List Nat))
    (dumpRequestOut : Bool → Except Unit (List Nat))
    (dispatch : ρ × Option ε)
    (dumpResponse : Bool → Except Unit (List Nat)) :
    List LogLine × (ρ × Option ε) :=
  (reqLog flags auth dumpRequestOut ++
     respLog flags dispatch.2.isSome dumpResponse,
   dispatch)

/-! Sanity checks against the Go unit tests (`TestCleanAuth`, `TestCleanAuths`). -/

example : cleanAuth (strBytes "") authorizationB = strBytes "" := by decide
example : cleanAuth (strBytes "floo") authorizationB = strBytes "floo" := by decide
example : cleanAuth (strBytes "Authorization: ") authorizationB
    = strBytes "Authorization: " := by decide
example : cleanAuth (strBytes "Authorization: \n") authorizationB
    = strBytes "Authorization: \n" := by decide
example : cleanAuth (strBytes "Authorization: A") authorizationB
    = strBytes "Authorization: X" := by decide
example : cleanAuth (strBytes "Authorization: A\n") authorizationB
    = strBytes "Authorization: X\n" := by decide
example : cleanAuth (strBytes "Authorization: AAAA") authorizationB
    = strBytes "Authorization: XXXX" := by decide
example : cleanAuth (strBytes "Authorization: AAAAA") authorizationB
    = strBytes "Authorization: XXXX" := by decide
example : cleanAuth (strBytes "Authorization: AAAAA\n") authorizationB
    = strBytes "Authorization: XXXX\n" := by decide
example : cleanAuth (strBytes "Authorization: AAAAAAAAA\nPotato: Help\n") authorizationB
    = strBytes "Authorization: XXXX\nPotato: Help\n" := by decide
example : cleanAuth (strBytes "Sausage: 1\nAuthorization: AAAAAAAAA\nPotato: Help\n")
    authorizationB
    = strBytes "Sausage: 1\nAuthorization: XXXX\nPotato: Help\n" := by decide
example : cleanAuths Auth (strBytes "X-Auth-Token: AAAAAAAAA\nAuthorization: AAAAAAAAA\nPotato: Help\n")
    = strBytes "X-Auth-Token: XXXX\nAuthorization: XXXX\nPotato: Help\n" := by decide
example : authorizationB = strBytes "Authorization: " := by decide
example : xAuthTokenB = strBytes "X-Auth-Token: " := by decide

/-! ## Core lemmas about the redaction engine -/

theorem maskN_fst_length (fuel : Nat) (l : List Nat) :
    (maskN fuel l).1.length = l.length := by
  induction fuel generalizing l with
  | zero => simp [maskN]
  | succ n ih =>
    cases l with
    | nil => simp [maskN]
    | cons b rest =>
      by_cases hb : b = 10
      · simp [maskN, hb]
      · simp [maskN, hb, ih rest]

theorem maskN_snd_le (fuel : Nat) (l : List Nat) :
    (maskN fuel l).2 ≤ min fuel l.length := by
  induction fuel generalizing l with
  | zero => simp [maskN]
  | succ n ih =>
    cases l with
    | nil => simp [maskN]
    | cons b rest =>
      by_cases hb : b = 10
      · simp [maskN, hb]
      · have := ih rest
        simp [maskN, hb]
        omega

theorem maskN_drop (fuel : Nat) (l : List Nat) :
    (maskN fuel l).1.drop (maskN fuel l).2 = l.drop (maskN fuel l).2 := by
  induction fuel generalizing l with
  | zero => simp [maskN]
  | succ n ih =>
    cases l with
    | nil => simp [maskN]
    | cons b rest =>
      by_cases hb : b = 10
      · simp [maskN, hb]
      · simp [maskN, hb, ih rest]

theorem maskN_eq (fuel : Nat) (v rest : List Nat) (hv : ∀ b ∈ v, b ≠ 10) :
    maskN fuel (v ++ 10 :: rest) =
      (List.replicate (min fuel v.length) 88 ++ (v.drop fuel ++ 10 :: rest),
       min fuel v.length) := by
  induction fuel generalizing v with
  | zero => simp [maskN]
  | succ n ih =>
    cases v with
    | nil => simp [maskN]
    | cons b bs =>
      have hb : b ≠ 10 := hv b (List.mem_cons_self _ _)
      have ih' := ih bs (fun x hx => hv x (List.mem_cons_of_mem _ hx))
      simp [maskN, hb, ih', Nat.succ_min_succ, List.replicate_succ]

theorem indexOfByte_append (w r : List Nat) (hw : ∀ b ∈ w, b ≠ 10) :
    indexOfByte (w ++ 10 :: r) 10 = some w.length := by
  induction w with
  | nil => simp [indexOfByte]
  | cons b bs ih =>
    have hb : b ≠ 10 := hw b (List.mem_cons_self _ _)
    simp [indexOfByte, hb, ih (fun x hx => hw x (List.mem_cons_of_mem _ hx))]

theorem isPre_length {nd l : List Nat} (h : isPre nd l = true) :
    nd.length ≤ l.length := by
  induction nd generalizing l with
  | nil => simp
  | cons a as ih =>
    cases l with
    | nil => simp [isPre] at h
    | cons b bs =>
      simp only [isPre, Bool.and_eq_true, beq_iff_eq] at h
      have := ih h.2
      simp only [List.length_cons]
      omega

theorem findSub_eq_none {hs nd : List Nat}
    (h : ∀ i, isPre nd (hs.drop i) = false) : findSub hs nd = none := by
  induction hs with
  | nil =>
    have h0 := h 0
    simp only [List.drop_zero] at h0
    simp [findSub, h0]
  | cons a t ih =>
    have h0 := h 0
    simp only [List.drop_zero] at h0
    have ht : ∀ i, isPre nd (t.drop i) = false := fun i => h (i + 1)
    simp [findSub, h0, ih ht]

/-- The central characterization of a successful `cleanAuth` pass: when the
prefix is found at `i` and the following bytes are a newline-free value `w`,
a newline, and `rest`, the result masks `min 4 w.length` bytes and splices
the remainder of the value out, keeping the newline. -/
theorem cleanAuth_found {buf authBuf w rest : List Nat} {i : Nat}
    (hfind : findSub (buf.take (min 4096 buf.length)) authBuf = some i)
    (hdrop : buf.drop (i + authBuf.length) = w ++ 10 :: rest)
    (hw : ∀ b ∈ w, b ≠ 10) :
    cleanAuth buf authBuf =
      buf.take (i + authBuf.length) ++
        List.replicate (min 4 w.length) 88 ++ 10 :: rest := by
  have hw4 : ∀ b ∈ w.drop 4, b ≠ 10 := fun b hb => hw b (List.mem_of_mem_drop hb)
  have hk : (List.replicate (min 4 w.length) 88).length = min 4 w.length :=
    List.length_replicate _ _
  simp only [cleanAuth, hfind]
  rw [hdrop, maskN_eq 4 w rest hw]
  simp only [List.take_left' hk, List.drop_left' hk, indexOfByte_append _ _ hw4]
  simp [List.drop_left, List.append_assoc]

/-! ## Bit-flag helpers -/

theorem lor_eq_zero_iff (x y : Nat) : x ||| y = 0 ↔ x = 0 ∧ y = 0 := by
  constructor
  · intro h
    constructor <;>
      · apply Nat.eq_of_testBit_eq
        intro i
        have hi := congrArg (fun n => Nat.testBit n i) h
        simp only [Nat.testBit_or, Nat.zero_testBit, Bool.or_eq_false_iff] at hi
        simp [hi.1, hi.2]
  · rintro ⟨rfl, rfl⟩
    rfl

theorem land_allFlags_eq_zero (f : Nat) :
    f &&& (DumpHeaders ||| DumpBodies ||| DumpAuth ||| DumpRequests ||| DumpResponses) = 0 ↔
      f &&& DumpHeaders = 0 ∧ f &&& DumpBodies = 0 ∧ f &&& DumpRequests = 0 ∧
        f &&& DumpResponses = 0 ∧ f &&& DumpAuth = 0 := by
  simp only [Nat.and_or_distrib_left, lor_eq_zero_iff]
  tauto

theorem land_reqBody_eq_zero (f : Nat) :
    f &&& (DumpBodies ||| DumpRequests) = 0 ↔
      f &&& DumpBodies = 0 ∧ f &&& DumpRequests = 0 := by
  simp only [Nat.and_or_distrib_left, lor_eq_zero_iff]

theorem land_respBody_eq_zero (f : Nat) :
    f &&& (DumpBodies ||| DumpResponses) = 0 ↔
      f &&& DumpBodies = 0 ∧ f &&& DumpResponses = 0 := by
  simp only [Nat.and_or_distrib_left, lor_eq_zero_iff]

/-! ## Claim theorems about the redaction engine -/

/-- C3: for every buffer and sensitive prefix such that the prefix does not
occur within the first `min 4096 buf.length` bytes — in particular for every
buffer not containing the prefix at all — `cleanAuth` is the identity. -/
theorem cleanAuth_id_of_not_found (buf authBuf : List Nat)
    (h : ∀ i, isPre authBuf ((buf.take (min 4096 buf.length)).drop i) = false) :
    cleanAuth buf authBuf = buf := by
  have hn := findSub_eq_none h
  simp [cleanAuth, hn]

/-- Witness for C3: a buffer (`"floo"`) not containing `"Authorization: "`
passes through `cleanAuth` unchanged. -/
theorem cleanAuth_id_of_not_found_witness :
    cleanAuth (strBytes "floo") authorizationB = strBytes "floo" :=
  cleanAuth_id_of_not_found (strBytes "floo") authorizationB (fun i => by
    cases h : isPre authorizationB (((strBytes "floo").take
        (min 4096 (strBytes "floo").length)).drop i) with
    | false => rfl
    | true =>
      exfalso
      have hlen := isPre_length h
      have h1 : authorizationB.length = 15 := rfl
      have h2 : (strBytes "floo").length = 4 := rfl
      rw [ List.length_drop, List.length_take, h1, h2] at hlen
      omega)

/-- C2: value masking.  When `"Authorization: "`-style prefix `authBuf` is
found at position `i` and is followed by a newline-free value `v` and a line
feed: if `v.length ≤ 4` the whole value is overwritten with `v.length` mask
bytes and nothing else changes; if `v.length > 4` exactly 4 mask bytes follow
the prefix, the rest of the value is spliced out (the line feed itself is
kept), and the total length shrinks by exactly `v.length - 4`. -/
theorem cleanAuth_value_masking {buf authBuf v rest : List Nat} {i : Nat}
    (hfind : findSub (buf.take (min 4096 buf.length)) authBuf = some i)
    (hdrop : buf.drop (i + authBuf.length) = v ++ 10 :: rest)
    (hv : ∀ b ∈ v, b ≠ 10) :
    (v.length ≤ 4 →
      cleanAuth buf authBuf =
        buf.take (i + authBuf.length) ++ List.replicate v.length 88 ++ 10 :: rest) ∧
    (4 < v.length →
      cleanAuth buf authBuf =
        buf.take (i + authBuf.length) ++ List.replicate 4 88 ++ 10 :: rest ∧
      (cleanAuth buf authBuf).length + (v.length - 4) = buf.length) := by
  have key := cleanAuth_found hfind hdrop hv
  have hlen : buf.length - (i + authBuf.length) = v.length + 1 + rest.length := by
    have hc := congrArg List.length hdrop
    simp only [List.length_drop, List.length_append, List.length_cons] at hc
    omega
  constructor
  · intro hL
    rw [key, Nat.min_eq_right hL]
  · intro hL
    have hmin : min 4 v.length = 4 := Nat.min_eq_left (by omega)
    rw [key, hmin]
    refine ⟨rfl, ?_⟩
    simp only [List.length_append, List.length_take, List.length_replicate,
      List.length_cons]
    omega

/-- Witness for C2 at the Go test vector
`"Authorization: AAAAAAAAA\nPotato: Help\n"` (value length 9 > 4). -/
theorem cleanAuth_value_masking_witness :
    (([65, 65, 65, 65, 65, 65, 65, 65, 65] : List Nat).length ≤ 4 →
      cleanAuth (strBytes "Authorization: AAAAAAAAA\nPotato: Help\n") authorizationB =
        (strBytes "Authorization: AAAAAAAAA\nPotato: Help\n").take (0 + authorizationB.length) ++
          List.replicate ([65, 65, 65, 65, 65, 65, 65, 65, 65] : List Nat).length 88 ++
          10 :: strBytes "Potato: Help\n") ∧
    (4 < ([65, 65, 65, 65, 65, 65, 65, 65, 65] : List Nat).length →
      cleanAuth (strBytes "Authorization: AAAAAAAAA\nPotato: Help\n") authorizationB =
        (strBytes "Authorization: AAAAAAAAA\nPotato: Help\n").take (0 + authorizationB.length) ++
          List.replicate 4 88 ++ 10 :: strBytes "Potato: Help\n" ∧
      (cleanAuth (strBytes "Authorization: AAAAAAAAA\nPotato: Help\n") authorizationB).length +
          (([65, 65, 65, 65, 65, 65, 65, 65, 65] : List Nat).length - 4) =
        (strBytes "Authorization: AAAAAAAAA\nPotato: Help\n").length) :=
  cleanAuth_value_masking (by decide) (by decide) (by decide)

/-- C4: `cleanAuths` is the sequential fold of `cleanAuth` over the configured
prefixes in configuration order, and on the documented example both default
headers are masked to `XXXX` while the unrelated line is untouched. -/
theorem cleanAuths_passes :
    (∀ buf : List Nat, cleanAuths [] buf = buf) ∧
    (∀ (p : List Nat) (ps : List (List Nat)) (buf : List Nat),
      cleanAuths (p :: ps) buf = cleanAuths ps (cleanAuth buf p)) ∧
    cleanAuths Auth
        (strBytes "X-Auth-Token: AAAAAAAAA\nAuthorization: AAAAAAAAA\nPotato: Help\n") =
      strBytes "X-Auth-Token: XXXX\nAuthorization: XXXX\nPotato: Help\n" :=
  ⟨fun _ => rfl, fun _ _ _ => rfl, by decide⟩

theorem cleanAuth_length_le (buf authBuf : List Nat) :
    (cleanAuth buf authBuf).length ≤ buf.length := by
  simp only [cleanAuth]
  cases hf : findSub (buf.take (min 4096 buf.length)) authBuf with
  | none => simp
  | some idx =>
    simp only [hf]
    have hm := maskN_fst_length 4 (buf.drop (idx + authBuf.length))
    have hs := maskN_snd_le 4 (buf.drop (idx + authBuf.length))
    rw [ List.length_drop] at hm hs
    cases hib : indexOfByte ((maskN 4 (buf.drop (idx + authBuf.length))).1.drop
        (maskN 4 (buf.drop (idx + authBuf.length))).2) 10 with
    | none =>
      simp only [hib, List.length_append, List.length_take, List.length_drop]
      omega
    | some j =>
      simp only [hib, List.length_append, List.length_take, List.length_drop]
      omega

/-- C9: `cleanAuth` is total and in-bounds: the output never exceeds the
input's length, and the masking loop rewrites the buffer without changing its
length, overwrites at most `min fuel l.length` bytes (never past the end of
the buffer), and leaves every byte after the masked ones unchanged. -/
theorem cleanAuth_safe (buf authBuf : List Nat) :
    (cleanAuth buf authBuf).length ≤ buf.length ∧
    (∀ (fuel : Nat) (l : List Nat),
      (maskN fuel l).1.length = l.length ∧
      (maskN fuel l).2 ≤ min fuel l.length ∧
      (maskN fuel l).1.drop (maskN fuel l).2 = l.drop (maskN fuel l).2) :=
  ⟨cleanAuth_length_le buf authBuf,
   fun fuel l => ⟨maskN_fst_length fuel l, maskN_snd_le fuel l, maskN_drop fuel l⟩⟩

/-- C10: `cleanAuth` treats only the line feed as a terminator.  For a header
line ending in `"\r\n"` with a newline-free value `v`: the carriage return is
treated as a value byte, so `min 4 (v.length + 1)` mask bytes are written
(that is `v.length + 1` of them — one more than the value — when
`v.length < 4`, and exactly `4`, the `'\r'` being spliced out with the value
remainder, when `4 ≤ v.length`), and the redacted line ends with a bare
`'\n'`. -/
theorem cleanAuth_crlf {buf authBuf v rest : List Nat} {i : Nat}
    (hfind : findSub (buf.take (min 4096 buf.length)) authBuf = some i)
    (hdrop : buf.drop (i + authBuf.length) = v ++ 13 :: 10 :: rest)
    (hv : ∀ b ∈ v, b ≠ 10) :
    cleanAuth buf authBuf =
      buf.take (i + authBuf.length) ++
        List.replicate (min 4 (v.length + 1)) 88 ++ 10 :: rest ∧
    (v.length < 4 → min 4 (v.length + 1) = v.length + 1) ∧
    (4 ≤ v.length → min 4 (v.length + 1) = 4) := by
  have hw : ∀ b ∈ v ++ [13], b ≠ 10 := by
    intro b hb
    rcases List.mem_append.mp hb with h | h
    · exact hv b h
    · simp only [List.mem_singleton] at h
      omega
  have hdrop' : buf.drop (i + authBuf.length) = (v ++ [13]) ++ 10 :: rest := by
    simpa [List.append_assoc] using hdrop
  have key := cleanAuth_found hfind hdrop' hw
  rw [ List.length_append, List.length_singleton] at key
  exact ⟨key, fun h => by omega, fun h => by omega⟩

/-- Witness for C10: `"Authorization: AB\r\n"` — a two-byte value followed by
`"\r\n"` comes out masked as three `'X'`s ending in a bare `'\n'`. -/
theorem cleanAuth_crlf_witness :
    cleanAuth (strBytes "Authorization: AB\r\n") authorizationB =
      (strBytes "Authorization: AB\r\n").take (0 + authorizationB.length) ++
        List.replicate (min 4 (([65, 66] : List Nat).length + 1)) 88 ++ 10 :: [] ∧
    (([65, 66] : List Nat).length < 4 →
      min 4 (([65, 66] : List Nat).length + 1) = ([65, 66] : List Nat).length + 1) ∧
    (4 ≤ ([65, 66] : List Nat).length →
      min 4 (([65, 66] : List Nat).length + 1) = 4) :=
  cleanAuth_crlf (by decide) (by decide) (by decide)

/-! ## Claim theorems about the interception layer -/

/-- A response dump containing an authorization header: bytes of
`"Authorization: SECRET\n"`. -/
def leakBuf : List Nat := authorizationB ++ [83, 69, 67, 82, 69, 84, 10]

/-- C1 counterexample: with `DumpHeaders` set, `DumpAuth` clear, a successful
dispatch and successful serializations, the response block that `RoundTrip`
logs (line index 6) is the raw serialized response buffer — it is NOT passed
through `cleanAuths`, although `cleanAuths` would have changed it.  The
request buffer, by contrast, is logged redacted (line index 2). -/
theorem roundTrip_response_unredacted_cex :
    ((RoundTrip DumpHeaders Auth (fun _ => Except.ok leakBuf)
        (((), none) : Unit × Option Unit) (fun _ => Except.ok leakBuf)).1[6]? =
      some (LogLine.content leakBuf)) ∧
    ((RoundTrip DumpHeaders Auth (fun _ => Except.ok leakBuf)
        (((), none) : Unit × Option Unit) (fun _ => Except.ok leakBuf)).1[2]? =
      some (LogLine.content (cleanAuths Auth leakBuf))) ∧
    cleanAuths Auth leakBuf ≠ leakBuf := by
  refine ⟨rfl, rfl, ?_⟩
  decide

/-- C1 amended: in a fully successful, redacting round trip the request
buffer is passed through `cleanAuths` before being logged, while the response
buffer is logged exactly as serialized, without redaction. -/
theorem roundTrip_success_log {ρ ε : Type} (flags : Nat) (auth : List (List Nat))
    (dumpRequestOut : Bool → Except Unit (List Nat)) (dispatch : ρ × Option ε)
    (dumpResponse : Bool → Except Unit (List Nat)) (rbuf sbuf : List Nat)
    (hlog : loggingEnabled flags = true)
    (hauth : flags &&& DumpAuth = 0)
    (hdr : dumpRequestOut (reqWithBody flags) = Except.ok rbuf)
    (hok : dispatch.2 = none)
    (hdrr : dumpResponse (respWithBody flags) = Except.ok sbuf) :
    (RoundTrip flags auth dumpRequestOut dispatch dumpResponse).1 =
      [LogLine.sepReq, LogLine.bannerReq, LogLine.content (cleanAuths auth rbuf),
       LogLine.sepReq, LogLine.sepResp, LogLine.bannerResp, LogLine.content sbuf,
       LogLine.sepResp] := by
  simp [RoundTrip, reqLog, respLog, hlog, hauth, hdr, hok, hdrr]

/-- Witness for the amended C1, at `flags = DumpHeaders` with the raw and
dumped buffers both `leakBuf`. -/
theorem roundTrip_success_log_witness :
    (RoundTrip DumpHeaders Auth (fun _ => Except.ok leakBuf)
        (((), none) : Unit × Option Unit) (fun _ => Except.ok leakBuf)).1 =
      [LogLine.sepReq, LogLine.bannerReq, LogLine.content (cleanAuths Auth leakBuf),
       LogLine.sepReq, LogLine.sepResp, LogLine.bannerResp, LogLine.content leakBuf,
       LogLine.sepResp] :=
  roundTrip_success_log DumpHeaders Auth _ _ _ leakBuf leakBuf rfl rfl rfl rfl rfl

/-- C5: `RoundTrip` logs at least one line iff one of the five dump flags is
set, and with `Flags = 0` it produces no log lines and hands back the wrapped
transport's result untouched. -/
theorem roundTrip_logs_iff_flags {ρ ε : Type} (flags : Nat) (auth : List (List Nat))
    (dumpRequestOut : Bool → Except Unit (List Nat)) (dispatch : ρ × Option ε)
    (dumpResponse : Bool → Except Unit (List Nat)) :
    ((RoundTrip flags auth dumpRequestOut dispatch dumpResponse).1 ≠ [] ↔
      (flags &&& DumpHeaders ≠ 0 ∨ flags &&& DumpBodies ≠ 0 ∨
       flags &&& DumpRequests ≠ 0 ∨ flags &&& DumpResponses ≠ 0 ∨
       flags &&& DumpAuth ≠ 0)) ∧
    (RoundTrip 0 auth dumpRequestOut dispatch dumpResponse).1 = [] ∧
    (RoundTrip 0 auth dumpRequestOut dispatch dumpResponse).2 = dispatch := by
  refine ⟨?_, ?_, rfl⟩
  · cases hl : loggingEnabled flags with
    | false =>
      have hz : flags &&& (DumpHeaders ||| DumpBodies ||| DumpAuth |||
          DumpRequests ||| DumpResponses) = 0 := by
        simpa [loggingEnabled] using hl
      rw [land_allFlags_eq_zero] at hz
      constructor
      · intro hne
        exact absurd (by simp [RoundTrip, reqLog, respLog, hl]) hne
      · intro hdisj
        tauto
    | true =>
      have hnz : flags &&& (DumpHeaders ||| DumpBodies ||| DumpAuth |||
          DumpRequests ||| DumpResponses) ≠ 0 := by
        simpa [loggingEnabled] using hl
      constructor
      · intro _
        by_contra hall
        push_neg at hall
        exact hnz ((land_allFlags_eq_zero flags).mpr
          ⟨hall.1, hall.2.1, hall.2.2.1, hall.2.2.2.1, hall.2.2.2.2⟩)
      · intro _
        simp [RoundTrip, reqLog, respLog, hl]
  · have h0 : loggingEnabled 0 = false := rfl
    simp [RoundTrip, reqLog, respLog, h0]

/-- C6: with only `DumpHeaders` set and everything succeeding, `RoundTrip`
logs exactly 8 lines in order: request separator, request banner, request
dump block, request separator, response separator, response banner, response
dump block, response separator. -/
theorem roundTrip_dumpHeaders_eight_lines {ρ ε : Type} (auth : List (List Nat))
    (dumpRequestOut : Bool → Except Unit (List Nat)) (dispatch : ρ × Option ε)
    (dumpResponse : Bool → Except Unit (List Nat)) (rbuf sbuf : List Nat)
    (hdr : dumpRequestOut false = Except.ok rbuf)
    (hok : dispatch.2 = none)
    (hdrr : dumpResponse false = Except.ok sbuf) :
    (RoundTrip DumpHeaders auth dumpRequestOut dispatch dumpResponse).1 =
      [LogLine.sepReq, LogLine.bannerReq, LogLine.content (cleanAuths auth rbuf),
       LogLine.sepReq, LogLine.sepResp, LogLine.bannerResp, LogLine.content sbuf,
       LogLine.sepResp] ∧
    (RoundTrip DumpHeaders auth dumpRequestOut dispatch dumpResponse).1.length = 8 := by
  have hl : loggingEnabled DumpHeaders = true := rfl
  have hrb : reqWithBody DumpHeaders = false := rfl
  have hsb : respWithBody DumpHeaders = false := rfl
  have ha : DumpHeaders &&& DumpAuth = 0 := rfl
  constructor
  · simp [RoundTrip, reqLog, respLog, hl, hrb, hsb, ha, hdr, hok, hdrr]
  · simp [RoundTrip, reqLog, respLog, hl, hrb, hsb, ha, hdr, hok, hdrr]

/-- Witness for C6 with concrete oracles and an authorization-bearing
request buffer. -/
theorem roundTrip_dumpHeaders_eight_lines_witness :
    (RoundTrip DumpHeaders Auth (fun _ => Except.ok leakBuf)
        (((), none) : Unit × Option Unit) (fun _ => Except.ok [])).1 =
      [LogLine.sepReq, LogLine.bannerReq, LogLine.content (cleanAuths Auth leakBuf),
       LogLine.sepReq, LogLine.sepResp, LogLine.bannerResp, LogLine.content [],
       LogLine.sepResp] ∧
    (RoundTrip DumpHeaders Auth (fun _ => Except.ok leakBuf)
        (((), none) : Unit × Option Unit) (fun _ => Except.ok [])).1.length = 8 :=
  roundTrip_dumpHeaders_eight_lines Auth _ _ _ leakBuf [] rfl rfl rfl

/-- C7: whenever `RoundTrip` serializes, the request dump is asked to include
the body iff `DumpBodies` or `DumpRequests` is set and the response dump is
asked to include the body iff `DumpBodies` or `DumpResponses` is set;
moreover the round trip depends on the dump oracles only at those body
arguments. -/
theorem roundTrip_body_flags (flags : Nat) :
    ((reqWithBody flags = true) ↔
      (flags &&& DumpBodies ≠ 0 ∨ flags &&& DumpRequests ≠ 0)) ∧
    ((respWithBody flags = true) ↔
      (flags &&& DumpBodies ≠ 0 ∨ flags &&& DumpResponses ≠ 0)) ∧
    (∀ {ρ ε : Type} (auth : List (List Nat))
       (f g : Bool → Except Unit (List Nat)) (dispatch : ρ × Option ε)
       (fr gr : Bool → Except Unit (List Nat)),
       f (reqWithBody flags) = g (reqWithBody flags) →
       fr (respWithBody flags) = gr (respWithBody flags) →
       RoundTrip flags auth f dispatch fr = RoundTrip flags auth g dispatch gr) := by
  refine ⟨?_, ?_, ?_⟩
  · rw [reqWithBody, bne_iff_ne]
    constructor
    · intro h
      by_contra hall
      push_neg at hall
      exact h ((land_reqBody_eq_zero flags).mpr hall)
    · intro h h0
      rw [land_reqBody_eq_zero] at h0
      tauto
  · rw [respWithBody, bne_iff_ne]
    constructor
    · intro h
      by_contra hall
      push_neg at hall
      exact h ((land_respBody_eq_zero flags).mpr hall)
    · intro h h0
      rw [land_respBody_eq_zero] at h0
      tauto
  · intro ρ ε auth f g dispatch fr gr hf hr
    simp only [RoundTrip, reqLog, respLog, hf, hr]

/-- Witness for C7: two request oracles and two response oracles that differ
everywhere except at the body argument actually used give identical round
trips (here `flags = DumpHeaders`, so the bodies are not requested). -/
theorem roundTrip_body_flags_witness :
    RoundTrip DumpHeaders Auth (fun b => Except.ok (if b then [1] else []))
        (((), none) : Unit × Option Unit)
        (fun b => Except.ok (if b then [3] else [])) =
      RoundTrip DumpHeaders Auth (fun b => Except.ok (if b then [2] else []))
        ((), none) (fun b => Except.ok (if b then [4] else [])) :=
  (roundTrip_body_flags DumpHeaders).2.2 Auth _ _ _ _ _ rfl rfl

/-- C8: `RoundTrip` returns exactly the wrapped transport's `(resp, err)`
pair — no logging outcome changes it — and when dispatch fails with logging
enabled, the failure is logged as the descriptive line of the response
section while the error itself is propagated inside the returned pair. -/
theorem roundTrip_returns_dispatch {ρ ε : Type} (flags : Nat) (auth : List (List Nat))
    (dumpRequestOut : Bool → Except Unit (List Nat)) (dispatch : ρ × Option ε)
    (dumpResponse : Bool → Except Unit (List Nat)) :
    (RoundTrip flags auth dumpRequestOut dispatch dumpResponse).2 = dispatch ∧
    (∀ e : ε, dispatch.2 = some e → loggingEnabled flags = true →
      (RoundTrip flags auth dumpRequestOut dispatch dumpResponse).1 =
        reqLog flags auth dumpRequestOut ++
          [LogLine.sepResp, LogLine.bannerResp, LogLine.httpReqFailed,
           LogLine.sepResp] ∧
      (RoundTrip flags auth dumpRequestOut dispatch dumpResponse).2.2 = some e) := by
  refine ⟨rfl, fun e he hl => ⟨?_, he⟩⟩
  simp [RoundTrip, respLog, hl, he]

/-- Witness for C8 with a failing dispatch under `DumpHeaders`. -/
theorem roundTrip_returns_dispatch_witness :
    (RoundTrip DumpHeaders Auth (fun _ => Except.ok [])
        (((), some ()) : Unit × Option Unit) (fun _ => Except.ok [])).2 =
      ((), some ()) ∧
    ((((), some ()) : Unit × Option Unit).2 = some () →
      loggingEnabled DumpHeaders = true →
      (RoundTrip DumpHeaders Auth (fun _ => Except.ok [])
          (((), some ()) : Unit × Option Unit) (fun _ => Except.ok [])).1 =
        reqLog DumpHeaders Auth (fun _ => Except.ok []) ++
          [LogLine.sepResp, LogLine.bannerResp, LogLine.httpReqFailed,
           LogLine.sepResp] ∧
      (RoundTrip DumpHeaders Auth (fun _ => Except.ok [])
          (((), some ()) : Unit × Option Unit) (fun _ => Except.ok [])).2.2 =
        some ()) :=
  ⟨(roundTrip_returns_dispatch DumpHeaders Auth _ _ _).1,
   fun _ _ => (roundTrip_returns_dispatch DumpHeaders Auth
     (fun _ => Except.ok []) ((), some ()) (fun _ => Except.ok [])).2 () rfl rfl⟩

end DebugHttp
